import Mathlib

/-!
A verification development for the textEditor repository.

The backend service (backend/app.py) keeps an in-memory mapping from
filenames to records holding the current content and a dirty flag, and
persists records to a storage directory on an explicit save call.  The
form-based editor (file_editor/) has its own extension validator.

The embedding below translates those Python functions into Lean.  The
external JSON/YAML parsers (json.loads, yaml.safe_load) are parameters
of the model: a `Parsers` value tells, for a content string, whether
the corresponding parser accepts it.  The FastAPI error channel is
modelled by `Err`: an `HTTPException` carries its status code, and an
exception that the handler does not catch is surfaced by the framework
as a 500 response, which `statusOf` reflects.
-/

/-- Decidable equality on handler outcomes, so that concrete runs can
be checked by evaluation. -/
instance {ε α : Type} [DecidableEq ε] [DecidableEq α] : DecidableEq (Except ε α) := fun a b =>
  match a, b with
  | Except.error e₁, Except.error e₂ =>
    if h : e₁ = e₂ then Decidable.isTrue (by rw [h]) else Decidable.isFalse (by simp [h])
  | Except.ok v₁, Except.ok v₂ =>
    if h : v₁ = v₂ then Decidable.isTrue (by rw [h]) else Decidable.isFalse (by simp [h])
  | Except.error _, Except.ok _ => Decidable.isFalse (by simp)
  | Except.ok _, Except.error _ => Decidable.isFalse (by simp)

namespace Backend

/-- External parsers: `jsonOk c` models "json.loads(c) does not raise",
`yamlOk c` models "yaml.safe_load(c) does not raise". -/
structure Parsers where
  jsonOk : String → Bool
  yamlOk : String → Bool

/-- An error escaping a route handler: either a raised `HTTPException`
with its status code and detail, or an uncaught exception (surfaced by
the framework as a 500 response). -/
inductive Err where
  | http (status : Nat) (detail : String)
  | exn (name : String)
  deriving DecidableEq

/-- The HTTP status code of the response produced for an error:
an `HTTPException` keeps its code, an uncaught exception becomes 500. -/
def statusOf : Err → Nat
  | Err.http s _ => s
  | Err.exn _ => 500

/-- In-memory record for a file and its state (class FileRecord). -/
structure FileRecord where
  content : String
  dirty : Bool
  deriving DecidableEq

/-- The service state: the global `files` dict plus the contents of the
storage directory (`STORAGE_DIR`) on disk, keyed by filename. -/
structure AppState where
  files : List (String × FileRecord)
  disk : List (String × String)
  deriving DecidableEq

/-- Dictionary lookup (`files.get(filename)`): first binding wins. -/
def lookup (k : String) : List (String × α) → Option α
  | [] => none
  | (k', v) :: rest => if k = k' then some v else lookup k rest

/-- Dictionary overwrite (`files[filename] = record`): the new binding
shadows any older one. -/
def put (k : String) (v : α) (m : List (String × α)) : List (String × α) :=
  (k, v) :: m

/-- Python `s.endswith(suffix)`. -/
def endswith (s suffix : String) : Bool :=
  suffix.data.isSuffixOf s.data

/-- Drop trailing path separators, as pathlib does when computing the
final component of a path. -/
def stripTrailingSlashes (cs : List Char) : List Char :=
  (cs.reverse.dropWhile (fun c => c = '/')).reverse

/-- The characters after the last path separator. -/
def afterLastSlash (cs : List Char) : List Char :=
  (cs.reverse.takeWhile (fun c => c ≠ '/')).reverse

/-- `Path(filename).name`: the final path component. -/
def pyName (filename : String) : List Char :=
  afterLastSlash (stripTrailingSlashes filename.data)

/-- Index of the last dot (`name.rfind(".")` when a dot is present). -/
def lastDotIdx (cs : List Char) : Option Nat :=
  match cs.reverse.findIdx? (fun c => c = '.') with
  | none => none
  | some j => some (cs.length - 1 - j)

/-- `Path(filename).suffix`: the final component's last suffix with its
leading dot, and "" when the dot is absent, leading, or trailing. -/
def pySuffix (filename : String) : String :=
  let name := pyName filename
  match lastDotIdx name with
  | none => ""
  | some i => if 0 < i ∧ i < name.length - 1 then String.mk (name.drop i) else ""

/-- `os.path.basename(url)`: everything after the last slash. -/
def osBasename (s : String) : String :=
  String.mk (afterLastSlash s.data)

/-- ALLOWED_EXTENSIONS of backend/app.py. -/
def ALLOWED_EXTENSIONS : List String := [".txt", ".json", ".yaml", ".yml"]

/-- `_validate_extension`: reject filenames whose pathlib suffix is not
in the allow-set, with a 400 HTTPException. -/
def validate_extension (filename : String) : Except Err Unit :=
  if ALLOWED_EXTENSIONS.contains (pySuffix filename) then Except.ok ()
  else Except.error (Err.http 400 "Unsupported file type")

/-- `_validate_content`: run json.loads on `.json` files and
yaml.safe_load on `.yaml`/`.yml` files; a parse failure raises the
parser's exception, which nothing catches. -/
def validate_content (p : Parsers) (filename content : String) : Except Err Unit :=
  if endswith filename ".json" && !(p.jsonOk content) then
    Except.error (Err.exn "json.JSONDecodeError")
  else if (endswith filename ".yaml" || endswith filename ".yml") && !(p.yamlOk content) then
    Except.error (Err.exn "yaml.YAMLError")
  else Except.ok ()

/-- Python `a or b` specialised to strings (`payload.content or ""`). -/
def pyOrStr (a b : String) : String :=
  if a = "" then b else a

/-- The part of an HTTP response that fetch_file inspects. -/
structure HttpResponse where
  status_code : Nat
  text : String
  deriving DecidableEq

/-- `upload_file`: validate the extension and the decoded content, then
store the file in memory as a clean record. -/
def upload_file (p : Parsers) (st : AppState) (filename text : String) :
    Except Err (AppState × String) :=
  match validate_extension filename with
  | Except.error e => Except.error e
  | Except.ok _ =>
    match validate_content p filename text with
    | Except.error e => Except.error e
    | Except.ok _ =>
      Except.ok (AppState.mk (put filename (FileRecord.mk text false) st.files) st.disk,
        filename)

/-- `fetch_file`: on a 200 response, derive the filename from the URL,
validate, and store the body in memory as a clean record. -/
def fetch_file (p : Parsers) (st : AppState) (url : String) (response : HttpResponse) :
    Except Err (AppState × String) :=
  if response.status_code ≠ 200 then Except.error (Err.http 400 "Unable to fetch file")
  else
    match validate_extension (osBasename url) with
    | Except.error e => Except.error e
    | Except.ok _ =>
      match validate_content p (osBasename url) response.text with
      | Except.error e => Except.error e
      | Except.ok _ =>
        Except.ok (AppState.mk
          (put (osBasename url) (FileRecord.mk response.text false) st.files) st.disk,
          osBasename url)

/-- `create_file`: validate the extension and the content
(`payload.content or ""`), then store a dirty record. -/
def create_file (p : Parsers) (st : AppState) (filename content : String) :
    Except Err (AppState × String) :=
  match validate_extension filename with
  | Except.error e => Except.error e
  | Except.ok _ =>
    match validate_content p filename (pyOrStr content "") with
    | Except.error e => Except.error e
    | Except.ok _ =>
      Except.ok (AppState.mk (put filename (FileRecord.mk content true) st.files) st.disk,
        "File created. Call save endpoint to persist.")

/-- `read_file`: return the in-memory content, 404 when absent. -/
def read_file (st : AppState) (filename : String) : Except Err String :=
  match lookup filename st.files with
  | none => Except.error (Err.http 404 "File not found")
  | some record => Except.ok record.content

/-- `update_file`: require an existing record, validate the new
content, then overwrite the content and mark the record dirty. -/
def update_file (p : Parsers) (st : AppState) (filename content : String) :
    Except Err (AppState × String) :=
  match lookup filename st.files with
  | none => Except.error (Err.http 404 "File not found")
  | some _ =>
    match validate_content p filename content with
    | Except.error e => Except.error e
    | Except.ok _ =>
      Except.ok (AppState.mk (put filename (FileRecord.mk content true) st.files) st.disk,
        "Changes staged. Call save endpoint to persist.")

/-- `save_file`: 404 when the record is absent; a no-op answer when it
is clean; otherwise write the content to the storage path under the
filename and clear the dirty flag. -/
def save_file (st : AppState) (filename : String) : Except Err (AppState × String) :=
  match lookup filename st.files with
  | none => Except.error (Err.http 404 "File not found")
  | some record =>
    if !record.dirty then Except.ok (st, "No changes to save.")
    else
      Except.ok (AppState.mk
        (put filename (FileRecord.mk record.content false) st.files)
        (put filename record.content st.disk),
        "File saved.")

/-- The state `save_file` leaves behind when called on an existing
record: unchanged when clean, content written to the storage path and
flag cleared when dirty. -/
def saveState (st : AppState) (fn : String) (r : FileRecord) : AppState :=
  if r.dirty then
    AppState.mk (put fn (FileRecord.mk r.content false) st.files) (put fn r.content st.disk)
  else st

/-- The message `save_file` answers for an existing record. -/
def saveMsg (r : FileRecord) : String :=
  if r.dirty then "File saved." else "No changes to save."

/-- One client action against the service. -/
inductive Op where
  | upload (filename content : String)
  | fetch (url : String) (response : HttpResponse)
  | create (filename content : String)
  | update (filename content : String)
  | save (filename : String)
  | read (filename : String)
  deriving DecidableEq

/-- Operations of the staged-edit core (everything except upload and
fetch, which install records without going through a disk write). -/
def Op.staged : Op → Bool
  | Op.upload _ _ => false
  | Op.fetch _ _ => false
  | _ => true

/-- The state after a handler ran: its new state on success, the old
state when it errored (every handler raises before mutating). -/
def applyEx (st : AppState) : Except Err (AppState × String) → AppState
  | Except.ok (s, _) => s
  | Except.error _ => st

/-- The state transition of one operation. -/
def step (p : Parsers) (st : AppState) : Op → AppState
  | Op.upload fn c => applyEx st (upload_file p st fn c)
  | Op.fetch url resp => applyEx st (fetch_file p st url resp)
  | Op.create fn c => applyEx st (create_file p st fn c)
  | Op.update fn c => applyEx st (update_file p st fn c)
  | Op.save fn => applyEx st (save_file st fn)
  | Op.read _ => st

/-- The initial state: empty in-memory store, empty storage directory. -/
def initState : AppState := AppState.mk [] []

/-- Run a sequence of operations from the initial state. -/
def run (p : Parsers) (ops : List Op) : AppState :=
  ops.foldl (step p) initState

/-- Does this handler outcome consist of an error surfaced with HTTP
status 500? -/
def fails500 (x : Except Err (AppState × String)) : Bool :=
  match x with
  | Except.error e => statusOf e == 500
  | Except.ok _ => false

/-- Does this validation outcome consist of an error surfaced with HTTP
status 500? -/
def contentErr500 (x : Except Err Unit) : Bool :=
  match x with
  | Except.error e => statusOf e == 500
  | Except.ok _ => false

/-- A record's content satisfies the parser matching its extension. -/
def recordTyped (p : Parsers) (fn : String) (r : FileRecord) : Prop :=
  (endswith fn ".json" = true → p.jsonOk r.content = true) ∧
  ((endswith fn ".yaml" = true ∨ endswith fn ".yml" = true) → p.yamlOk r.content = true)

/-- Every stored record's content satisfies its extension's parser. -/
def typedStore (p : Parsers) (st : AppState) : Prop :=
  ∀ fn r, lookup fn st.files = some r → recordTyped p fn r

/-- Every clean record's content was the last write to its storage
path. -/
def cleanPersisted (st : AppState) : Prop :=
  ∀ fn r, lookup fn st.files = some r → r.dirty = false →
    lookup fn st.disk = some r.content

end Backend

namespace FileEditor

/-- ALLOWED_EXTENSIONS of file_editor/utils.py (no leading dots). -/
def ALLOWED_EXTENSIONS : List String := ["yaml", "yml", "json", "txt"]

/-- `filename.rsplit(".", 1)[1]` when a dot is present. -/
def afterLastDot (s : String) : String :=
  String.mk ((s.data.reverse.takeWhile (fun c => c ≠ '.')).reverse)

/-- `allowed_file`: a dot is present and the lowercased last extension
is in the allow-set. -/
def allowed_file (filename : String) : Bool :=
  filename.data.contains '.' &&
    ALLOWED_EXTENSIONS.contains (String.mk ((afterLastDot filename).data.map Char.toLower))

end FileEditor

namespace Demo

/-!
A concrete `Backend.Parsers` instance for evaluating the model on
explicit inputs.  `jsonCheck` is a small recursive-descent validity
checker for a core of JSON (null/true/false, integers and decimal
fractions, escape-free strings, arrays, objects); `yamlBalanced`
stands in for yaml.safe_load by rejecting unmatched square brackets.
The real parsers stay parameters of the model; this instance only
feeds witnesses and counterexamples.
-/

/-- Skip blanks, tabs, newlines. -/
def skipWs : List Char → List Char
  | [] => []
  | c :: cs => if c = ' ' || c = '\n' || c = '\t' || c = '\r' then skipWs cs else c :: cs

/-- Consume an expected literal tail. -/
def parseLit (lit : List Char) (cs : List Char) : Option (List Char) :=
  if lit.isPrefixOf cs then some (cs.drop lit.length) else none

/-- Consume the rest of an escape-free string token (after the opening
quote). -/
def jsonStringTail : List Char → Option (List Char)
  | [] => none
  | c :: cs =>
    if c = '"' then some cs
    else if c = '\\' then none
    else jsonStringTail cs

/-- Consume a number token: optional minus, digits, optional fraction. -/
def jsonNumberTail (cs : List Char) : Option (List Char) :=
  let cs1 := match cs with
    | '-' :: rest => rest
    | _ => cs
  let ds := cs1.takeWhile Char.isDigit
  if ds.isEmpty then none
  else
    match cs1.drop ds.length with
    | '.' :: r2 =>
      let fs := r2.takeWhile Char.isDigit
      if fs.isEmpty then none else some (r2.drop fs.length)
    | rest => some rest

/-- What the checker is currently parsing: a value, the elements of an
array after its opening bracket, or the members of an object after its
opening brace. -/
inductive JKind where
  | value
  | elems
  | members

/-- Fuel-bounded recursive-descent checker; returns the unconsumed
input on success. -/
def jsonP : Nat → JKind → List Char → Option (List Char)
  | 0, _, _ => none
  | f + 1, JKind.value, cs =>
    match skipWs cs with
    | '"' :: rest => jsonStringTail rest
    | '[' :: rest =>
      (match skipWs rest with
       | ']' :: r2 => some r2
       | r2 => jsonP f JKind.elems r2)
    | '\x7b' :: rest =>
      (match skipWs rest with
       | '\x7d' :: r2 => some r2
       | r2 => jsonP f JKind.members r2)
    | 'n' :: rest => parseLit ['u', 'l', 'l'] rest
    | 't' :: rest => parseLit ['r', 'u', 'e'] rest
    | 'f' :: rest => parseLit ['a', 'l', 's', 'e'] rest
    | other => jsonNumberTail other
  | f + 1, JKind.elems, cs =>
    match jsonP f JKind.value cs with
    | none => none
    | some rest =>
      match skipWs rest with
      | ',' :: r2 => jsonP f JKind.elems r2
      | ']' :: r2 => some r2
      | _ => none
  | f + 1, JKind.members, cs =>
    match skipWs cs with
    | '"' :: rest =>
      (match jsonStringTail rest with
       | none => none
       | some r2 =>
         match skipWs r2 with
         | ':' :: r3 =>
           (match jsonP f JKind.value r3 with
            | none => none
            | some r4 =>
              match skipWs r4 with
              | ',' :: r5 => jsonP f JKind.members r5
              | '\x7d' :: r5 => some r5
              | _ => none)
         | _ => none)
    | _ => none

/-- Is the string one complete JSON value (of the core grammar)? -/
def jsonCheck (s : String) : Bool :=
  match jsonP (2 * s.length + 2) JKind.value s.data with
  | some rest => (skipWs rest).isEmpty
  | none => false

/-- Square brackets balanced by count: a crude stand-in for the YAML
flow-sequence errors yaml.safe_load reports. -/
def yamlBalanced (s : String) : Bool :=
  s.data.count '[' == s.data.count ']'

/-- The parser instance used for concrete runs. -/
def demoParsers : Backend.Parsers :=
  Backend.Parsers.mk jsonCheck yamlBalanced

end Demo

open Backend FileEditor Demo

theorem lookup_put_self (k : String) (v : α) (m : List (String × α)) :
    lookup k (put k v m) = some v := by
  simp [lookup, put]

theorem lookup_put_other {k' k : String} (h : k' ≠ k) (v : α) (m : List (String × α)) :
    lookup k' (put k v m) = lookup k' m := by
  simp [lookup, put, h]

theorem pyOrStr_empty (a : String) : pyOrStr a "" = a := by
  unfold pyOrStr
  split
  · simp_all
  · rfl

theorem validate_content_ok {p : Parsers} {fn c : String}
    (h : validate_content p fn c = Except.ok ()) :
    (endswith fn ".json" = true → p.jsonOk c = true) ∧
    ((endswith fn ".yaml" = true ∨ endswith fn ".yml" = true) → p.yamlOk c = true) := by
  unfold validate_content at h
  split at h
  · simp at h
  · split at h
    · simp at h
    · constructor
      · intro hj
        by_contra hbad
        simp_all
      · intro hy
        by_contra hbad
        rcases hy with hy | hy <;> simp_all

theorem validate_content_bad {p : Parsers} {fn c : String}
    (hbad : (endswith fn ".json" = true ∧ p.jsonOk c = false) ∨
      ((endswith fn ".yaml" = true ∨ endswith fn ".yml" = true) ∧ p.yamlOk c = false)) :
    contentErr500 (validate_content p fn c) = true := by
  unfold validate_content
  rcases hbad with ⟨hj, hjp⟩ | ⟨hy, hyp⟩
  · simp [hj, hjp, contentErr500, statusOf]
  · by_cases hc : (endswith fn ".json" && !(p.jsonOk c)) = true
    · simp [hc, contentErr500, statusOf]
    · rcases hy with hy | hy <;>
        simp [hc, hy, hyp, contentErr500, statusOf]

theorem upload_ok {p : Parsers} {st : AppState} {fn c : String} {w : AppState × String}
    (h : upload_file p st fn c = Except.ok w) :
    validate_extension fn = Except.ok () ∧ validate_content p fn c = Except.ok () ∧
      w = (AppState.mk (put fn (FileRecord.mk c false) st.files) st.disk, fn) := by
  unfold upload_file at h
  split at h
  · simp at h
  · split at h
    · simp at h
    · simp at h
      exact ⟨by assumption, by assumption, h.symm⟩

theorem fetch_ok {p : Parsers} {st : AppState} {url : String} {resp : HttpResponse}
    {w : AppState × String} (h : fetch_file p st url resp = Except.ok w) :
    resp.status_code = 200 ∧ validate_extension (osBasename url) = Except.ok () ∧
      validate_content p (osBasename url) resp.text = Except.ok () ∧
      w = (AppState.mk (put (osBasename url) (FileRecord.mk resp.text false) st.files) st.disk,
        osBasename url) := by
  unfold fetch_file at h
  split at h
  · simp at h
  · split at h
    · simp at h
    · split at h
      · simp at h
      · simp at h
        refine ⟨by omega, by assumption, by assumption, h.symm⟩

theorem create_ok {p : Parsers} {st : AppState} {fn c : String} {w : AppState × String}
    (h : create_file p st fn c = Except.ok w) :
    validate_extension fn = Except.ok () ∧ validate_content p fn c = Except.ok () ∧
      w = (AppState.mk (put fn (FileRecord.mk c true) st.files) st.disk,
        "File created. Call save endpoint to persist.") := by
  unfold create_file at h
  split at h
  · simp at h
  · split at h
    · simp at h
    · simp at h
      refine ⟨by assumption, ?_, h.symm⟩
      rw [← pyOrStr_empty c]
      assumption

theorem update_ok {p : Parsers} {st : AppState} {fn c : String} {w : AppState × String}
    (h : update_file p st fn c = Except.ok w) :
    validate_content p fn c = Except.ok () ∧
      w = (AppState.mk (put fn (FileRecord.mk c true) st.files) st.disk,
        "Changes staged. Call save endpoint to persist.") := by
  unfold update_file at h
  split at h
  · simp at h
  · split at h
    · simp at h
    · simp at h
      exact ⟨by assumption, h.symm⟩

theorem save_ok {st : AppState} {fn : String} {w : AppState × String}
    (h : save_file st fn = Except.ok w) :
    w.1 = st ∨
      ∃ r, lookup fn st.files = some r ∧ r.dirty = true ∧
        w.1 = AppState.mk (put fn (FileRecord.mk r.content false) st.files)
          (put fn r.content st.disk) := by
  unfold save_file at h
  split at h
  · simp at h
  · rename_i r hr
    split at h
    · left
      simp at h
      exact (congrArg Prod.fst h).symm
    · rename_i hd
      right
      simp at h
      exact ⟨r, hr, by simpa using hd, (congrArg Prod.fst h).symm⟩

theorem typed_put {p : Parsers} {st : AppState} {fn : String} {r : FileRecord} {disk : List (String × String)}
    (h : typedStore p st) (hr : recordTyped p fn r) :
    typedStore p (AppState.mk (put fn r st.files) disk) := by
  intro fn' r' hl
  by_cases hfe : fn' = fn
  · subst hfe
    rw [lookup_put_self] at hl
    cases hl
    exact hr
  · rw [lookup_put_other hfe] at hl
    exact h fn' r' hl

theorem typed_step {p : Parsers} {st : AppState} (op : Op) (h : typedStore p st) :
    typedStore p (step p st op) := by
  cases op with
  | upload fn c =>
    simp only [step]
    cases hu : upload_file p st fn c with
    | error e => simpa [applyEx] using h
    | ok w =>
      obtain ⟨_, hcont, hw⟩ := upload_ok hu
      subst hw
      simp only [applyEx]
      exact typed_put h ⟨fun hj => (validate_content_ok hcont).1 hj,
        fun hy => (validate_content_ok hcont).2 hy⟩
  | fetch url resp =>
    simp only [step]
    cases hu : fetch_file p st url resp with
    | error e => simpa [applyEx] using h
    | ok w =>
      obtain ⟨_, _, hcont, hw⟩ := fetch_ok hu
      subst hw
      simp only [applyEx]
      exact typed_put h ⟨fun hj => (validate_content_ok hcont).1 hj,
        fun hy => (validate_content_ok hcont).2 hy⟩
  | create fn c =>
    simp only [step]
    cases hu : create_file p st fn c with
    | error e => simpa [applyEx] using h
    | ok w =>
      obtain ⟨_, hcont, hw⟩ := create_ok hu
      subst hw
      simp only [applyEx]
      exact typed_put h ⟨fun hj => (validate_content_ok hcont).1 hj,
        fun hy => (validate_content_ok hcont).2 hy⟩
  | update fn c =>
    simp only [step]
    cases hu : update_file p st fn c with
    | error e => simpa [applyEx] using h
    | ok w =>
      obtain ⟨hcont, hw⟩ := update_ok hu
      subst hw
      simp only [applyEx]
      exact typed_put h ⟨fun hj => (validate_content_ok hcont).1 hj,
        fun hy => (validate_content_ok hcont).2 hy⟩
  | save fn =>
    simp only [step]
    cases hu : save_file st fn with
    | error e => simpa [applyEx] using h
    | ok w =>
      rcases save_ok hu with hw | ⟨r, hr, _, hw⟩
      · simpa [applyEx, hw] using h
      · simp only [applyEx, hw]
        have hrt := h fn r hr
        exact typed_put h ⟨fun hj => hrt.1 hj, fun hy => hrt.2 hy⟩
  | read fn => simpa [step] using h

theorem typed_run (p : Parsers) (ops : List Op) : ∀ st, typedStore p st →
    typedStore p (ops.foldl (step p) st) := by
  induction ops with
  | nil => exact fun st h => h
  | cons op rest ih => exact fun st h => ih (step p st op) (typed_step op h)

theorem clean_step {p : Parsers} {st : AppState} {op : Op} (hop : op.staged = true)
    (h : cleanPersisted st) : cleanPersisted (step p st op) := by
  cases op with
  | upload fn c => simp [Op.staged] at hop
  | fetch url resp => simp [Op.staged] at hop
  | create fn c =>
    simp only [step]
    cases hu : create_file p st fn c with
    | error e => simpa [applyEx] using h
    | ok w =>
      obtain ⟨_, _, hw⟩ := create_ok hu
      subst hw
      simp only [applyEx]
      intro fn' r' hl hd
      by_cases hfe : fn' = fn
      · subst hfe
        rw [lookup_put_self] at hl
        cases hl
        simp at hd
      · rw [lookup_put_other hfe] at hl
        exact h fn' r' hl hd
  | update fn c =>
    simp only [step]
    cases hu : update_file p st fn c with
    | error e => simpa [applyEx] using h
    | ok w =>
      obtain ⟨_, hw⟩ := update_ok hu
      subst hw
      simp only [applyEx]
      intro fn' r' hl hd
      by_cases hfe : fn' = fn
      · subst hfe
        rw [lookup_put_self] at hl
        cases hl
        simp at hd
      · rw [lookup_put_other hfe] at hl
        exact h fn' r' hl hd
  | save fn =>
    simp only [step]
    cases hu : save_file st fn with
    | error e => simpa [applyEx] using h
    | ok w =>
      rcases save_ok hu with hw | ⟨r, hr, _, hw⟩
      · simpa [applyEx, hw] using h
      · simp only [applyEx, hw]
        intro fn' r' hl hd
        by_cases hfe : fn' = fn
        · subst hfe
          rw [lookup_put_self] at hl
          cases hl
          rw [lookup_put_self]
        · rw [lookup_put_other hfe] at hl
          rw [lookup_put_other hfe]
          exact h fn' r' hl hd
  | read fn => simpa [step] using h

theorem clean_run (p : Parsers) (ops : List Op) (hops : ops.all Op.staged = true) :
    ∀ st, cleanPersisted st → cleanPersisted (ops.foldl (step p) st) := by
  induction ops with
  | nil => exact fun st h => h
  | cons op rest ih =>
    simp only [List.all_cons, Bool.and_eq_true] at hops
    exact fun st h => ih hops.2 (step p st op) (clean_step hops.1 h)

/-- C1 (corrected): when a write-path operation reaches the content check on
a filename ending in .json (resp. .yaml/.yml) whose content does not parse,
the parse exception escapes the handler uncaught and is surfaced as an HTTP
500 response — not the 400-class error the claim states — and the in-memory
store is unchanged. -/
theorem C1_parse_error_500 (p : Parsers) (st : AppState) (fn c url : String)
    (resp : HttpResponse) (r : FileRecord)
    (hbad : (endswith fn ".json" = true ∧ p.jsonOk c = false) ∨
      ((endswith fn ".yaml" = true ∨ endswith fn ".yml" = true) ∧ p.yamlOk c = false)) :
    (validate_extension fn = Except.ok () →
      fails500 (upload_file p st fn c) = true ∧ fails500 (create_file p st fn c) = true) ∧
    (lookup fn st.files = some r → fails500 (update_file p st fn c) = true) ∧
    (resp.status_code = 200 → osBasename url = fn → resp.text = c →
      validate_extension fn = Except.ok () →
      fails500 (fetch_file p st url resp) = true ∧ step p st (Op.fetch url resp) = st) ∧
    step p st (Op.upload fn c) = st ∧ step p st (Op.create fn c) = st ∧
    step p st (Op.update fn c) = st := by
  have hbad500 := validate_content_bad hbad
  have hve : ∃ e, validate_content p fn c = Except.error e ∧ statusOf e = 500 := by
    cases hvc : validate_content p fn c with
    | ok u => rw [hvc] at hbad500; simp [contentErr500] at hbad500
    | error e =>
      rw [hvc] at hbad500
      simp [contentErr500] at hbad500
      exact ⟨e, rfl, hbad500⟩
  obtain ⟨e, hvc, h500⟩ := hve
  have hup : ∃ e', upload_file p st fn c = Except.error e' := by
    cases hx : validate_extension fn with
    | error e' => exact ⟨e', by simp [upload_file, hx]⟩
    | ok u => exact ⟨e, by simp [upload_file, hx, hvc]⟩
  have hcr : ∃ e', create_file p st fn c = Except.error e' := by
    cases hx : validate_extension fn with
    | error e' => exact ⟨e', by simp [create_file, hx]⟩
    | ok u => exact ⟨e, by simp [create_file, hx, pyOrStr_empty, hvc]⟩
  have hupd : ∃ e', update_file p st fn c = Except.error e' := by
    cases hx : lookup fn st.files with
    | none => exact ⟨Err.http 404 "File not found", by simp [update_file, hx]⟩
    | some r' => exact ⟨e, by simp [update_file, hx, hvc]⟩
  refine ⟨?_, ?_, ?_, ?_, ?_, ?_⟩
  · intro hext
    constructor
    · simp [fails500, upload_file, hext, hvc, h500]
    · simp [fails500, create_file, hext, pyOrStr_empty, hvc, h500]
  · intro hl
    simp [fails500, update_file, hl, hvc, h500]
  · intro h200 hurl htext hext
    constructor
    · simp [fails500, fetch_file, h200, hurl, htext, hext, hvc, h500]
    · have : fetch_file p st url resp = Except.error e := by
        simp [fetch_file, h200, hurl, htext, hext, hvc]
      simp [step, applyEx, this]
  · obtain ⟨e', he'⟩ := hup
    simp [step, applyEx, he']
  · obtain ⟨e', he'⟩ := hcr
    simp [step, applyEx, he']
  · obtain ⟨e', he'⟩ := hupd
    simp [step, applyEx, he']

/-- C1 witness: uploading or creating "a.json" with the empty string (not
valid JSON) fails with a 500-surfaced parse exception. -/
theorem C1_witness :
    ((endswith "a.json" ".json" = true ∧ demoParsers.jsonOk "" = false) ∨
      ((endswith "a.json" ".yaml" = true ∨ endswith "a.json" ".yml" = true) ∧
        demoParsers.yamlOk "" = false)) ∧
    validate_extension "a.json" = Except.ok () ∧
    fails500 (upload_file demoParsers initState "a.json" "") = true ∧
    fails500 (create_file demoParsers initState "a.json" "") = true := by
  have h := (C1_parse_error_500 demoParsers initState "a.json" "" "u"
    (HttpResponse.mk 200 "") (FileRecord.mk "" false) (Or.inl (by decide))).1 (by decide)
  exact ⟨Or.inl (by decide), by decide, h.1, h.2⟩

/-- C1 counterexample: creating "a.json" with empty (malformed) content does
not produce a 400-class error — the error status is 500. -/
theorem C1_counterexample :
    ¬ (∀ (p : Parsers) (st : AppState) (fn c : String) (e : Err),
        endswith fn ".json" = true → p.jsonOk c = false →
        create_file p st fn c = Except.error e →
        400 ≤ statusOf e ∧ statusOf e < 500) := by
  intro h
  have hx := h demoParsers initState "a.json" "" (Err.exn "json.JSONDecodeError")
    (by decide) (by decide) (by decide)
  exact absurd hx.2 (by decide)

/-- C2 (corrected): restricted to sequences of create, update and save
operations (upload and fetch excluded, since they install clean records
without persisting anything), every record with a false dirty flag holds
exactly the content last written to the storage path for its filename. -/
theorem C2_clean_persisted (p : Parsers) (ops : List Op) (fn : String) (r : FileRecord)
    (hstaged : ops.all Op.staged = true)
    (hl : lookup fn (run p ops).files = some r) (hd : r.dirty = false) :
    lookup fn (run p ops).disk = some r.content := by
  have h0 : cleanPersisted initState := by
    intro fn' r' hl' _
    simp [initState, lookup] at hl'
  exact clean_run p ops hstaged initState h0 fn r hl hd

/-- C2 witness: after create then save of "a.txt", the record is clean and
the disk holds its content. -/
theorem C2_witness :
    ([Op.create "a.txt" "hi", Op.save "a.txt"].all Op.staged = true) ∧
    (lookup "a.txt" (run demoParsers [Op.create "a.txt" "hi", Op.save "a.txt"]).files =
      some (FileRecord.mk "hi" false)) ∧
    ((FileRecord.mk "hi" false).dirty = false) ∧
    lookup "a.txt" (run demoParsers [Op.create "a.txt" "hi", Op.save "a.txt"]).disk =
      some "hi" :=
  ⟨by decide, by decide, by decide,
    C2_clean_persisted demoParsers [Op.create "a.txt" "hi", Op.save "a.txt"] "a.txt"
      (FileRecord.mk "hi" false) (by decide) (by decide) (by decide)⟩

/-- C2 counterexample: create "a.txt" with "x", save it, then upload "a.txt"
with "y": the record is clean yet its content differs from the last content
persisted to the storage path, refuting the claimed invariant. -/
theorem C2_counterexample :
    ¬ (∀ (p : Parsers) (ops : List Op) (fn : String) (r : FileRecord) (c : String),
        lookup fn (run p ops).files = some r → r.dirty = false →
        lookup fn (run p ops).disk = some c → r.content = c) := by
  intro h
  have hx := h demoParsers [Op.create "a.txt" "x", Op.save "a.txt", Op.upload "a.txt" "y"]
    "a.txt" (FileRecord.mk "y" false) "x" (by decide) (by decide) (by decide)
  exact absurd hx (by decide)

/-- C3: save on an unknown filename fails with a 404 error; on a clean
record it reports "No changes to save." without touching the state; on a
dirty record it writes the content to the storage path under the filename
(the new binding shadows any previous one unconditionally) and clears the
dirty flag. -/
theorem C3_save_behavior (st : AppState) (fn : String) (r : FileRecord) :
    (lookup fn st.files = none →
      save_file st fn = Except.error (Err.http 404 "File not found")) ∧
    (lookup fn st.files = some r → r.dirty = false →
      save_file st fn = Except.ok (st, "No changes to save.")) ∧
    (lookup fn st.files = some r → r.dirty = true →
      save_file st fn = Except.ok
        (AppState.mk (put fn (FileRecord.mk r.content false) st.files)
          (put fn r.content st.disk), "File saved.") ∧
      lookup fn (put fn r.content st.disk) = some r.content) := by
  refine ⟨?_, ?_, ?_⟩
  · intro h
    simp [save_file, h]
  · intro h hd
    simp [save_file, h, hd]
  · intro h hd
    exact ⟨by simp [save_file, h, hd], lookup_put_self _ _ _⟩

/-- C3 witness: saving a dirty record writes it to the storage path and the
written content can be looked up there. -/
theorem C3_witness :
    (lookup "a.txt" (AppState.mk [("a.txt", FileRecord.mk "hi" true)] []).files =
      some (FileRecord.mk "hi" true)) ∧
    ((FileRecord.mk "hi" true).dirty = true) ∧
    (save_file (AppState.mk [("a.txt", FileRecord.mk "hi" true)] []) "a.txt" =
      Except.ok (AppState.mk
        (put "a.txt" (FileRecord.mk "hi" false) [("a.txt", FileRecord.mk "hi" true)])
        (put "a.txt" "hi" []), "File saved.") ∧
      lookup "a.txt" (put "a.txt" "hi" []) = some "hi") :=
  ⟨by decide, by decide,
    (C3_save_behavior (AppState.mk [("a.txt", FileRecord.mk "hi" true)] []) "a.txt"
      (FileRecord.mk "hi" true)).2.2 (by decide) (by decide)⟩

/-- C4: for an existing record, save answers the saveState/saveMsg
characterisation — it writes exactly when the record is dirty and clears
the flag — and an immediately repeated save is a no-op: it returns the same
state with "No changes to save." and performs no disk write. -/
theorem C4_save_idempotent (st : AppState) (fn : String) (r : FileRecord)
    (h : lookup fn st.files = some r) :
    save_file st fn = Except.ok (saveState st fn r, saveMsg r) ∧
    save_file (saveState st fn r) fn =
      Except.ok (saveState st fn r, "No changes to save.") ∧
    (r.dirty = true → saveMsg r = "File saved." ∧
      (saveState st fn r).disk = put fn r.content st.disk ∧
      (saveState st fn r).files = put fn (FileRecord.mk r.content false) st.files) ∧
    (r.dirty = false → saveState st fn r = st ∧ saveMsg r = "No changes to save.") := by
  cases hd : r.dirty
  · refine ⟨?_, ?_, ?_, ?_⟩
    · simp [save_file, saveState, saveMsg, h, hd]
    · simp [save_file, saveState, saveMsg, h, hd]
    · intro h'
      exact Bool.noConfusion h'
    · intro _
      exact ⟨by simp [saveState, hd], by simp [saveMsg, hd]⟩
  · refine ⟨?_, ?_, ?_, ?_⟩
    · simp [save_file, saveState, saveMsg, h, hd]
    · simp [save_file, saveState, saveMsg, h, hd, lookup_put_self]
    · intro _
      exact ⟨by simp [saveMsg, hd], by simp [saveState, hd], by simp [saveState, hd]⟩
    · intro h'
      exact Bool.noConfusion h'

/-- C4 witness: a dirty "a.txt" record, saved twice: the first call writes,
the second returns the same state with "No changes to save.". -/
theorem C4_witness :
    (lookup "a.txt" (AppState.mk [("a.txt", FileRecord.mk "hi" true)] []).files =
      some (FileRecord.mk "hi" true)) ∧
    (save_file (AppState.mk [("a.txt", FileRecord.mk "hi" true)] []) "a.txt" =
      Except.ok (saveState (AppState.mk [("a.txt", FileRecord.mk "hi" true)] []) "a.txt"
        (FileRecord.mk "hi" true), saveMsg (FileRecord.mk "hi" true))) ∧
    (save_file (saveState (AppState.mk [("a.txt", FileRecord.mk "hi" true)] []) "a.txt"
        (FileRecord.mk "hi" true)) "a.txt" =
      Except.ok (saveState (AppState.mk [("a.txt", FileRecord.mk "hi" true)] []) "a.txt"
        (FileRecord.mk "hi" true), "No changes to save.")) := by
  have hc := C4_save_idempotent (AppState.mk [("a.txt", FileRecord.mk "hi" true)] [])
    "a.txt" (FileRecord.mk "hi" true) (by decide)
  exact ⟨by decide, hc.1, hc.2.1⟩

/-- C5: a filename whose pathlib suffix is outside the allow-set
{.txt, .json, .yaml, .yml} makes upload and create fail with the 400
"Unsupported file type" error, and fetch fail with a 400 error (the
extension error when the remote returned 200, the fetch error otherwise),
all leaving the in-memory store unchanged. -/
theorem C5_unsupported_rejected (p : Parsers) (st : AppState) (fn c url : String)
    (resp : HttpResponse)
    (hfn : Backend.ALLOWED_EXTENSIONS.contains (pySuffix fn) = false)
    (hurl : Backend.ALLOWED_EXTENSIONS.contains (pySuffix (osBasename url)) = false) :
    upload_file p st fn c = Except.error (Err.http 400 "Unsupported file type") ∧
    create_file p st fn c = Except.error (Err.http 400 "Unsupported file type") ∧
    (resp.status_code = 200 →
      fetch_file p st url resp = Except.error (Err.http 400 "Unsupported file type")) ∧
    (resp.status_code ≠ 200 →
      fetch_file p st url resp = Except.error (Err.http 400 "Unable to fetch file")) ∧
    step p st (Op.upload fn c) = st ∧ step p st (Op.create fn c) = st ∧
    step p st (Op.fetch url resp) = st := by
  have hv : validate_extension fn = Except.error (Err.http 400 "Unsupported file type") := by
    unfold validate_extension
    rw [hfn]
    simp
  have hvu : validate_extension (osBasename url) =
      Except.error (Err.http 400 "Unsupported file type") := by
    unfold validate_extension
    rw [hurl]
    simp
  have hfe : ∃ e, fetch_file p st url resp = Except.error e := by
    by_cases h200 : resp.status_code = 200
    · exact ⟨Err.http 400 "Unsupported file type", by simp [fetch_file, h200, hvu]⟩
    · exact ⟨Err.http 400 "Unable to fetch file", by simp [fetch_file, h200]⟩
  obtain ⟨e, he⟩ := hfe
  refine ⟨by simp [upload_file, hv], by simp [create_file, hv], ?_, ?_, ?_, ?_, ?_⟩
  · intro h200
    simp [fetch_file, h200, hvu]
  · intro hn
    simp [fetch_file, hn]
  · simp [step, applyEx, upload_file, hv]
  · simp [step, applyEx, create_file, hv]
  · simp [step, applyEx, he]

/-- C5 witness: "a.exe" (and a URL whose basename is "b.exe") are rejected
with the 400 "Unsupported file type" error. -/
theorem C5_witness :
    (Backend.ALLOWED_EXTENSIONS.contains (pySuffix "a.exe") = false) ∧
    (Backend.ALLOWED_EXTENSIONS.contains (pySuffix (osBasename "http://h/b.exe")) = false) ∧
    upload_file demoParsers initState "a.exe" "x" =
      Except.error (Err.http 400 "Unsupported file type") ∧
    create_file demoParsers initState "a.exe" "x" =
      Except.error (Err.http 400 "Unsupported file type") := by
  have hc := C5_unsupported_rejected demoParsers initState "a.exe" "x" "http://h/b.exe"
    (HttpResponse.mk 200 "x") (by decide) (by decide)
  exact ⟨by decide, by decide, hc.1, hc.2.1⟩

/-- C6: for content accepted by the JSON parser and a filename that passes
both validators, upload and create store the content verbatim and a read of
that filename returns it byte-identically. -/
theorem C6_roundtrip (p : Parsers) (st : AppState) (fn c : String)
    (_hjson : p.jsonOk c = true)
    (hext : validate_extension fn = Except.ok ())
    (hcont : validate_content p fn c = Except.ok ()) :
    upload_file p st fn c =
      Except.ok (AppState.mk (put fn (FileRecord.mk c false) st.files) st.disk, fn) ∧
    read_file (AppState.mk (put fn (FileRecord.mk c false) st.files) st.disk) fn =
      Except.ok c ∧
    create_file p st fn c =
      Except.ok (AppState.mk (put fn (FileRecord.mk c true) st.files) st.disk,
        "File created. Call save endpoint to persist.") ∧
    read_file (AppState.mk (put fn (FileRecord.mk c true) st.files) st.disk) fn =
      Except.ok c := by
  refine ⟨?_, ?_, ?_, ?_⟩
  · simp [upload_file, hext, hcont]
  · simp [read_file, lookup_put_self]
  · simp [create_file, hext, pyOrStr_empty, hcont]
  · simp [read_file, lookup_put_self]

/-- C6 witness: storing the valid JSON "1" under "data.json" and reading it
back returns exactly "1". -/
theorem C6_witness :
    (demoParsers.jsonOk "1" = true) ∧
    (validate_extension "data.json" = Except.ok ()) ∧
    (validate_content demoParsers "data.json" "1" = Except.ok ()) ∧
    upload_file demoParsers initState "data.json" "1" =
      Except.ok (AppState.mk (put "data.json" (FileRecord.mk "1" false) initState.files)
        initState.disk, "data.json") ∧
    read_file (AppState.mk (put "data.json" (FileRecord.mk "1" false) initState.files)
      initState.disk) "data.json" = Except.ok "1" := by
  have hc := C6_roundtrip demoParsers initState "data.json" "1" (by decide) (by decide)
    (by decide)
  exact ⟨by decide, by decide, by decide, hc.1, hc.2.1⟩

/-- C7: records installed by upload and fetch start clean (dirty = false),
records installed by create start dirty, update leaves the record dirty,
and save leaves it clean with its content kept. -/
theorem C7_dirty_lifecycle (p : Parsers) (st : AppState) (fn c url : String)
    (resp : HttpResponse) (r : FileRecord) :
    (validate_extension fn = Except.ok () → validate_content p fn c = Except.ok () →
      lookup fn (step p st (Op.upload fn c)).files = some (FileRecord.mk c false) ∧
      lookup fn (step p st (Op.create fn c)).files = some (FileRecord.mk c true)) ∧
    (resp.status_code = 200 → osBasename url = fn → resp.text = c →
      validate_extension fn = Except.ok () → validate_content p fn c = Except.ok () →
      lookup fn (step p st (Op.fetch url resp)).files = some (FileRecord.mk c false)) ∧
    (lookup fn st.files = some r → validate_content p fn c = Except.ok () →
      lookup fn (step p st (Op.update fn c)).files = some (FileRecord.mk c true)) ∧
    (lookup fn st.files = some r →
      lookup fn (step p st (Op.save fn)).files = some (FileRecord.mk r.content false)) := by
  refine ⟨?_, ?_, ?_, ?_⟩
  · intro hext hcont
    constructor
    · simp [step, applyEx, upload_file, hext, hcont, lookup_put_self]
    · simp [step, applyEx, create_file, hext, pyOrStr_empty, hcont, lookup_put_self]
  · intro h200 hurl htext hext hcont
    simp [step, applyEx, fetch_file, h200, hurl, htext, hext, hcont, lookup_put_self]
  · intro hl hcont
    simp [step, applyEx, update_file, hl, hcont, lookup_put_self]
  · intro hl
    cases hd : r.dirty
    · have hr : r = FileRecord.mk r.content false := by
        cases r
        simp_all
      have hs : save_file st fn = Except.ok (st, "No changes to save.") := by
        simp [save_file, hl, hd]
      simp only [step, hs, applyEx]
      rw [← hr]
      exact hl
    · simp [step, applyEx, save_file, hl, hd, lookup_put_self]

/-- C7 witness: uploading "a.txt" with "hi" yields a clean record, creating
it yields a dirty one. -/
theorem C7_witness :
    (validate_extension "a.txt" = Except.ok ()) ∧
    (validate_content demoParsers "a.txt" "hi" = Except.ok ()) ∧
    (lookup "a.txt" (step demoParsers initState (Op.upload "a.txt" "hi")).files =
      some (FileRecord.mk "hi" false) ∧
    lookup "a.txt" (step demoParsers initState (Op.create "a.txt" "hi")).files =
      some (FileRecord.mk "hi" true)) :=
  ⟨by decide, by decide,
    (C7_dirty_lifecycle demoParsers initState "a.txt" "hi" "u" (HttpResponse.mk 200 "hi")
      (FileRecord.mk "" false)).1 (by decide) (by decide)⟩

/-- C8: when no record exists for a filename, read, update and save all fail
with the 404 "File not found" error and the state is unchanged. -/
theorem C8_unknown_404 (p : Parsers) (st : AppState) (fn c : String)
    (h : lookup fn st.files = none) :
    read_file st fn = Except.error (Err.http 404 "File not found") ∧
    update_file p st fn c = Except.error (Err.http 404 "File not found") ∧
    save_file st fn = Except.error (Err.http 404 "File not found") ∧
    step p st (Op.read fn) = st ∧ step p st (Op.update fn c) = st ∧
    step p st (Op.save fn) = st := by
  refine ⟨by simp [read_file, h], by simp [update_file, h], by simp [save_file, h],
    by simp [step], ?_, ?_⟩
  · have hu : update_file p st fn c = Except.error (Err.http 404 "File not found") := by
      simp [update_file, h]
    simp [step, applyEx, hu]
  · have hs : save_file st fn = Except.error (Err.http 404 "File not found") := by
      simp [save_file, h]
    simp [step, applyEx, hs]

/-- C8 witness: in the initial state, read, update and save of "a.txt" all
fail with 404. -/
theorem C8_witness :
    (lookup "a.txt" initState.files = none) ∧
    read_file initState "a.txt" = Except.error (Err.http 404 "File not found") ∧
    update_file demoParsers initState "a.txt" "x" =
      Except.error (Err.http 404 "File not found") ∧
    save_file initState "a.txt" = Except.error (Err.http 404 "File not found") := by
  have hc := C8_unknown_404 demoParsers initState "a.txt" "x" (by decide)
  exact ⟨by decide, hc.1, hc.2.1, hc.2.2.1⟩

/-- C9: in every state reachable by any operation sequence, a stored record
whose filename ends in .json has content accepted by the JSON parser, and
one whose filename ends in .yaml or .yml has content accepted by the YAML
parser. -/
theorem C9_typed_invariant (p : Parsers) (ops : List Op) (fn : String) (r : FileRecord)
    (hl : lookup fn (run p ops).files = some r) :
    (endswith fn ".json" = true → p.jsonOk r.content = true) ∧
    ((endswith fn ".yaml" = true ∨ endswith fn ".yml" = true) →
      p.yamlOk r.content = true) := by
  have h0 : typedStore p initState := by
    intro fn' r' hl'
    simp [initState, lookup] at hl'
  exact typed_run p ops initState h0 fn r hl

/-- C9 witness: after creating "a.json" with "1", the stored record's
content is accepted by the JSON parser. -/
theorem C9_witness :
    (lookup "a.json" (run demoParsers [Op.create "a.json" "1"]).files =
      some (FileRecord.mk "1" true)) ∧
    ((endswith "a.json" ".json" = true → demoParsers.jsonOk "1" = true) ∧
      ((endswith "a.json" ".yaml" = true ∨ endswith "a.json" ".yml" = true) →
        demoParsers.yamlOk "1" = true)) :=
  ⟨by decide, C9_typed_invariant demoParsers [Op.create "a.json" "1"] "a.json"
    (FileRecord.mk "1" true) (by decide)⟩

/-- C10: the two extension validators disagree: the form-based allowed_file
accepts "notes.TXT" (it lowercases the extension) while the API validator
rejects it (Path suffix compared case-sensitively). -/
theorem C10_validators_disagree :
    allowed_file "notes.TXT" = true ∧
    validate_extension "notes.TXT" = Except.error (Err.http 400 "Unsupported file type") :=
  ⟨by decide, by decide⟩
